import Mathlib

/-
Verification of the go-cache engine (github.com/abenk-oss/go-cache).

The cache is a generic in-memory key-value store with per-entry TTL
expiration.  We give a shallow embedding of the Go code: the Go map
`map[K]item[V]` becomes an association list `Store K V`, the wall clock
`time.Now()` becomes an explicit `now : Int` parameter threaded through
every operation, and `time.Duration` / `time.Time` become `Int`
(absolute instants and durations in the same integer time scale).
Each exported method returns its new store explicitly instead of
mutating a receiver; the mutex is dropped because each operation runs
its whole body under the lock, so sequentially each operation is just a
function on the store.
-/

set_option autoImplicit false

namespace GoCache

variable {K V : Type}

/-- Embeds Go `type item[V any] struct { value V; expiry time.Time }`:
a stored value together with its absolute expiry instant. -/
structure item (V : Type) where
  value : V
  expiry : Int
deriving DecidableEq, Repr

/-- Embeds Go `map[K]item[V]` as an association list of key/item pairs. -/
abbrev Store (K V : Type) := List (K × item V)

/-- Embeds Go map indexing `i, found := c.items[key]`: `some i` when the
key is present, `none` when absent. -/
def lookup [DecidableEq K] : Store K V → K → Option (item V)
  | [], _ => none
  | (k', i) :: rest, k => if k = k' then some i else lookup rest k

/-- Embeds `func (c *Cache[K, V]) delete(key K)`, i.e. Go
`delete(c.items, key)`: removes any entry for the key. -/
def delete [DecidableEq K] : Store K V → K → Store K V
  | [], _ => []
  | (k', i) :: rest, k => if k' = k then delete rest k else (k', i) :: delete rest k

/-- Embeds Go map assignment `c.items[key] = i`: afterwards the key maps
to `i` and every other key is unchanged. -/
def assign [DecidableEq K] (s : Store K V) (k : K) (i : item V) : Store K V :=
  (k, i) :: delete s k

/-- Embeds `func (i item[V]) isExpired() bool { return time.Now().After(i.expiry) }`:
`time.Now().After(t)` holds iff `now > t` (strictly). -/
def isExpired (i : item V) (now : Int) : Bool := now > i.expiry

/-- Embeds `func (c *Cache[K, V]) set(key K, data V, ttl time.Duration)`:
stores `data` under `key` with `expiry = time.Now().Add(ttl) = now + ttl`. -/
def set [DecidableEq K] (s : Store K V) (key : K) (data : V) (ttl now : Int) : Store K V :=
  assign s key ⟨data, now + ttl⟩

/-- Models the errors produced by `fmt.Errorf` in the Go code, each one
naming the offending key:
`alreadyExists key` is `"item %v already exists"` (from Add),
`expired key` is `"item %v is expired"` (from Replace),
`notFound key` is `"item %v doesn't exist"` (from Replace). -/
inductive CacheError (K : Type) where
  | alreadyExists (key : K)
  | expired (key : K)
  | notFound (key : K)
deriving DecidableEq, Repr

/-- Embeds `func (c *Cache[K, V]) Set(key K, data V, ttl time.Duration)`:
locks, then calls `c.set(key, data, ttl)`. -/
def Set [DecidableEq K] (s : Store K V) (key : K) (data : V) (ttl now : Int) : Store K V :=
  set s key data ttl now

/-- Embeds `func (c *Cache[K, V]) Add(key K, data V, ttl time.Duration) error`:
if the key holds an expired entry it is deleted and the new entry stored;
if it holds a live entry, returns the already-exists error without mutating;
otherwise stores the new entry.  Result is (new store, error). -/
def Add [DecidableEq K] (s : Store K V) (key : K) (data : V) (ttl now : Int) :
    Store K V × Option (CacheError K) :=
  match lookup s key with
  | some i =>
      if isExpired i now then
        (set (delete s key) key data ttl now, none)
      else
        (s, some (.alreadyExists key))
  | none => (set s key data ttl now, none)

/-- Embeds `func (c *Cache[K, V]) Replace(key K, data V, ttl time.Duration) error`:
live entry gets overwritten via `set`; expired entry gets deleted with the
expired error; absent key gets the doesn't-exist error. -/
def Replace [DecidableEq K] (s : Store K V) (key : K) (data : V) (ttl now : Int) :
    Store K V × Option (CacheError K) :=
  match lookup s key with
  | some i =>
      if isExpired i now then
        (delete s key, some (.expired key))
      else
        (set s key data ttl now, none)
  | none => (s, some (.notFound key))

/-- Embeds `func (c *Cache[K, V]) Get(key K) (V, bool)`.  In Go the
not-found branch returns `i.value` of the zero-valued `item[V]`, i.e. the
zero value of `V`, modelled here by `default`.  Result is
(new store, returned value, found flag). -/
def Get [DecidableEq K] [Inhabited V] (s : Store K V) (key : K) (now : Int) :
    Store K V × V × Bool :=
  match lookup s key with
  | none => (s, default, false)
  | some i =>
      if isExpired i now then (delete s key, i.value, false)
      else (s, i.value, true)

/-- Embeds `func (c *Cache[K, V]) Pop(key K) (V, bool)`: absent key
returns the zero value (`default`) and false; otherwise the entry is
deleted and its value returned, with the found flag true iff it was live. -/
def Pop [DecidableEq K] [Inhabited V] (s : Store K V) (key : K) (now : Int) :
    Store K V × V × Bool :=
  match lookup s key with
  | none => (s, default, false)
  | some i =>
      if isExpired i now then (delete s key, i.value, false)
      else (delete s key, i.value, true)

/-- Embeds `func (c *Cache[K, V]) Remove(key K)`: unconditional delete. -/
def Remove [DecidableEq K] (s : Store K V) (key : K) : Store K V :=
  delete s key

/-- Embeds the collection loop of `RemoveExpired` (and of the background
sweeper in `New`): the keys of all entries that are expired at `now`. -/
def expiredKeys (s : Store K V) (now : Int) : List K :=
  (s.filter (fun p => isExpired p.2 now)).map Prod.fst

/-- Embeds `func (c *Cache[K, V]) RemoveExpired()`: collects the expired
keys, then deletes each of them. -/
def RemoveExpired [DecidableEq K] (s : Store K V) (now : Int) : Store K V :=
  (expiredKeys s now).foldl (fun acc k => delete acc k) s

/-- Embeds `func (c *Cache[K, V]) Clear()`, i.e. Go `clear(c.items)`:
the store becomes empty. -/
def Clear (_s : Store K V) : Store K V := []

/-- Go map invariant: an association list representing a `map[K]item[V]`
has no duplicate keys. -/
abbrev KeysNodup (s : Store K V) : Prop := (s.map Prod.fst).Nodup

/- ### Basic lookup lemmas -/

theorem lookup_delete [DecidableEq K] (s : Store K V) (k k' : K) :
    lookup (delete s k) k' = if k' = k then none else lookup s k' := by
  induction s with
  | nil => simp [delete, lookup]
  | cons p rest ih =>
      obtain ⟨k0, i0⟩ := p
      by_cases h0 : k0 = k
      · subst h0
        by_cases h1 : k' = k0
        · subst h1
          simp [delete, lookup, ih]
        · simp [delete, lookup, h1, ih]
      · by_cases h1 : k' = k0
        · subst h1
          simp [delete, lookup, h0, Ne.symm h0, ih]
        · simp [delete, lookup, h0, h1, ih]

theorem lookup_delete_self [DecidableEq K] (s : Store K V) (k : K) :
    lookup (delete s k) k = none := by
  simp [lookup_delete]

theorem lookup_delete_ne [DecidableEq K] (s : Store K V) (k k' : K) (h : k' ≠ k) :
    lookup (delete s k) k' = lookup s k' := by
  simp [lookup_delete, h]

theorem lookup_assign_self [DecidableEq K] (s : Store K V) (k : K) (i : item V) :
    lookup (assign s k i) k = some i := by
  simp [assign, lookup]

theorem lookup_assign_ne [DecidableEq K] (s : Store K V) (k k' : K) (i : item V) (h : k' ≠ k) :
    lookup (assign s k i) k' = lookup s k' := by
  simp [assign, lookup, h, lookup_delete_ne s k k' h]

theorem delete_delete [DecidableEq K] (s : Store K V) (k : K) :
    delete (delete s k) k = delete s k := by
  induction s with
  | nil => simp [delete]
  | cons p rest ih =>
      obtain ⟨k0, i0⟩ := p
      by_cases h0 : k0 = k <;> simp [delete, h0, ih]

theorem set_delete [DecidableEq K] (s : Store K V) (k : K) (d : V) (ttl now : Int) :
    set (delete s k) k d ttl now = set s k d ttl now := by
  simp [set, assign, delete_delete]

theorem lookup_foldl_delete [DecidableEq K] (keys : List K) (s : Store K V) (k : K) :
    lookup (keys.foldl (fun acc k' => delete acc k') s) k
      = if k ∈ keys then none else lookup s k := by
  induction keys generalizing s with
  | nil => simp
  | cons k0 rest ih =>
      simp only [List.foldl_cons]
      rw [ih]
      by_cases h : k ∈ rest
      · simp [h]
      · by_cases h0 : k = k0
        · subst h0
          simp [h, lookup_delete_self]
        · simp [h, h0, lookup_delete_ne _ _ _ h0]

theorem mem_expiredKeys (s : Store K V) (now : Int) (k : K) :
    k ∈ expiredKeys s now ↔ ∃ i, (k, i) ∈ s ∧ isExpired i now = true := by
  simp only [expiredKeys, List.mem_map, List.mem_filter]
  constructor
  · rintro ⟨⟨a, b⟩, ⟨hs, he⟩, rfl⟩
    exact ⟨b, hs, he⟩
  · rintro ⟨i, hs, he⟩
    exact ⟨(k, i), ⟨hs, he⟩, rfl⟩

theorem mem_of_lookup_eq_some [DecidableEq K] {s : Store K V} {k : K} {i : item V}
    (h : lookup s k = some i) : (k, i) ∈ s := by
  induction s with
  | nil => simp [lookup] at h
  | cons p rest ih =>
      obtain ⟨k0, i0⟩ := p
      by_cases hk : k = k0
      · subst hk
        simp [lookup] at h
        subst h
        exact List.mem_cons_self _ _
      · simp only [lookup, if_neg hk] at h
        exact List.mem_cons_of_mem _ (ih h)

theorem lookup_eq_some_of_mem [DecidableEq K] {s : Store K V} {k : K} {i : item V}
    (hnd : KeysNodup s) (h : (k, i) ∈ s) : lookup s k = some i := by
  induction s with
  | nil => simp at h
  | cons p rest ih =>
      obtain ⟨k0, i0⟩ := p
      simp only [KeysNodup, List.map_cons, List.nodup_cons] at hnd
      rcases List.mem_cons.mp h with heq | hmem
      · injection heq with h1 h2
        subst h1
        subst h2
        simp [lookup]
      · by_cases hk : k = k0
        · subst hk
          exact absurd (List.mem_map.mpr ⟨(k, i), hmem, rfl⟩) hnd.1
        · simp only [lookup, if_neg hk]
          exact ih hnd.2 hmem

/- ### Claim theorems -/

/-- C1: the claim says Get and Pop on an expired entry remove it and
return found=false with a value component carrying no stored data.  The
code removes the entry and returns found=false, but the value component
is the dead STORED value (`i.value` in the expired branch), not the zero
value: at the store mapping key 1 to value 42 with expiry 5, calling Pop
or Get at now = 10 yields the store emptied, found = false, and value 42
— the dead stored value, distinct from the zero value 0.  This
contradicts Pop's own doc comment ("returns the zero value for the item
type along with false" when the item has expired), so the code, not the
claim, is wrong. -/
theorem claim_C1_code_behavior :
    Pop [((1 : Nat), (⟨42, 5⟩ : item Nat))] 1 10 = ([], 42, false)
  ∧ Get [((1 : Nat), (⟨42, 5⟩ : item Nat))] 1 10 = ([], 42, false)
  ∧ (42 : Nat) ≠ (default : Nat) := by
  refine ⟨by decide, by decide, by decide⟩

/-- C2 counterexample: the claim says an entry is expired exactly when
`expiry <= now`, and that `Set(k, v, ttl)` with `ttl <= 0` followed
immediately by `Get(k)` returns not-found.  The code uses
`time.Now().After(expiry)`, which is STRICT: at the boundary instant
`expiry = now` the entry is still treated as live.  Concretely, Set at
time 0 with ttl = 0 stores expiry 0, and Get at the same time 0 returns
the value with found = true — live data from an entry with
`expiry <= now`. -/
theorem claim_C2_counterexample :
    isExpired (⟨42, 0⟩ : item Nat) 0 = false
  ∧ Get (Set ([] : Store Nat Nat) 1 42 0 0) 1 0 = ([(1, ⟨42, 0⟩)], 42, true) := by
  refine ⟨by decide, by decide⟩

/-- C2 (amended): an entry is expired exactly when `expiry < now`
(strictly); for every `ttl <= 0`, Set at time t followed by Get at any
strictly later time t' returns not-found; and no read operation (Get or
Pop) ever returns found=true for an entry whose `expiry < now`: whenever
found=true is returned the entry satisfies `now <= expiry`. -/
theorem claim_C2_amended (K V : Type) [DecidableEq K] [Inhabited V] :
    (∀ (i : item V) (now : Int), isExpired i now = true ↔ i.expiry < now)
  ∧ (∀ (s : Store K V) (k : K) (v : V) (ttl t t' : Int), ttl ≤ 0 → t < t' →
      (Get (Set s k v ttl t) k t').2.2 = false)
  ∧ (∀ (s : Store K V) (k : K) (now : Int), (Get s k now).2.2 = true →
      ∃ i, lookup s k = some i ∧ now ≤ i.expiry)
  ∧ (∀ (s : Store K V) (k : K) (now : Int), (Pop s k now).2.2 = true →
      ∃ i, lookup s k = some i ∧ now ≤ i.expiry) := by
  refine ⟨?_, ?_, ?_, ?_⟩
  · intro i now
    simp [isExpired]
  · intro s k v ttl t t' httl ht
    have hl : lookup (Set s k v ttl t) k = some ⟨v, t + ttl⟩ :=
      lookup_assign_self s k ⟨v, t + ttl⟩
    have hexp : isExpired (⟨v, t + ttl⟩ : item V) t' = true := by
      simp only [isExpired, gt_iff_lt, decide_eq_true_eq]
      omega
    simp [Get, hl, hexp]
  · intro s k now h
    rcases hcase : lookup s k with _ | i
    · simp [Get, hcase] at h
    · by_cases he : isExpired i now = true
      · simp [Get, hcase, he] at h
      · exact ⟨i, rfl, by simp only [isExpired, gt_iff_lt, decide_eq_true_eq, Bool.not_eq_true] at he; omega⟩
  · intro s k now h
    rcases hcase : lookup s k with _ | i
    · simp [Pop, hcase] at h
    · by_cases he : isExpired i now = true
      · simp [Pop, hcase, he] at h
      · exact ⟨i, rfl, by simp only [isExpired, gt_iff_lt, decide_eq_true_eq, Bool.not_eq_true] at he; omega⟩

/-- C2 witness: a concrete instance of the amended claim, Set of key 1
at time 0 with ttl 0 followed by Get at the strictly later time 1 is
not-found. -/
theorem claim_C2_amended_witness :
    (Get (Set ([] : Store Nat Nat) 1 42 0 0) 1 1).2.2 = false :=
  (claim_C2_amended Nat Nat).2.1 [] 1 42 0 0 1 (by decide) (by decide)

/-- C3: Add returns the already-exists error (naming the key) iff a live
entry occupies the key, and then the store is unchanged; otherwise it
returns success and the store is exactly what Set would produce, an entry
with value v and expiry now + ttl. -/
theorem claim_C3 (K V : Type) [DecidableEq K] (s : Store K V) (k : K) (v : V) (ttl now : Int) :
    ((∃ i, lookup s k = some i ∧ isExpired i now = false) →
      Add s k v ttl now = (s, some (CacheError.alreadyExists k)))
  ∧ ((∀ i, lookup s k = some i → isExpired i now = true) →
      Add s k v ttl now = (Set s k v ttl now, none))
  ∧ Set s k v ttl now = assign s k ⟨v, now + ttl⟩ := by
  refine ⟨?_, ?_, rfl⟩
  · rintro ⟨i, hl, hlive⟩
    simp [Add, hl, hlive]
  · intro hdead
    rcases hcase : lookup s k with _ | i
    · simp [Add, hcase, Set]
    · have he := hdead i hcase
      simp [Add, hcase, he, Set, set_delete]

/-- C3 witness: with key 1 live (expiry 10 > now 3) Add fails with
already-exists and leaves the store untouched; with key 1 expired
(expiry 2 < now 3) Add succeeds and produces exactly Set's result. -/
theorem claim_C3_witness :
    Add [((1 : Nat), (⟨7, 10⟩ : item Nat))] 1 99 5 3
        = ([(1, ⟨7, 10⟩)], some (CacheError.alreadyExists 1))
  ∧ Add [((1 : Nat), (⟨7, 2⟩ : item Nat))] 1 99 5 3
        = (Set [(1, ⟨7, 2⟩)] 1 99 5 3, none) :=
  ⟨(claim_C3 Nat Nat [((1 : Nat), (⟨7, 10⟩ : item Nat))] 1 99 5 3).1
      ⟨⟨7, 10⟩, by decide, by decide⟩,
   (claim_C3 Nat Nat [((1 : Nat), (⟨7, 2⟩ : item Nat))] 1 99 5 3).2.1
      (by intro i hi; simp [lookup] at hi; subst hi; decide)⟩

/-- C4: Replace is a trichotomy on the prior state of the key.  Absent
key: fails with the doesn't-exist error naming the key and the store is
unchanged.  Expired entry: the entry is deleted, no value is written,
the expired error naming the key is returned, and the key is absent
afterwards.  Live entry: the result is exactly Set's result with
success. -/
theorem claim_C4 (K V : Type) [DecidableEq K] (s : Store K V) (k : K) (v : V) (ttl now : Int) :
    (lookup s k = none → Replace s k v ttl now = (s, some (CacheError.notFound k)))
  ∧ (∀ i, lookup s k = some i → isExpired i now = true →
      Replace s k v ttl now = (delete s k, some (CacheError.expired k))
        ∧ lookup (delete s k) k = none)
  ∧ (∀ i, lookup s k = some i → isExpired i now = false →
      Replace s k v ttl now = (Set s k v ttl now, none)) := by
  refine ⟨?_, ?_, ?_⟩
  · intro h
    simp [Replace, h]
  · intro i hi he
    exact ⟨by simp [Replace, hi, he], lookup_delete_self s k⟩
  · intro i hi he
    simp [Replace, hi, he, Set]

/-- C4 witness: concrete instances of all three branches of Replace,
with key 1 absent, expired (expiry 2 < now 3), and live (expiry 10 >
now 3) respectively. -/
theorem claim_C4_witness :
    Replace ([] : Store Nat Nat) 1 9 5 3 = ([], some (CacheError.notFound 1))
  ∧ (Replace [((1 : Nat), (⟨7, 2⟩ : item Nat))] 1 9 5 3
        = (delete [((1 : Nat), (⟨7, 2⟩ : item Nat))] 1, some (CacheError.expired 1))
      ∧ lookup (delete [((1 : Nat), (⟨7, 2⟩ : item Nat))] 1) 1 = none)
  ∧ Replace [((1 : Nat), (⟨7, 10⟩ : item Nat))] 1 9 5 3
        = (Set [((1 : Nat), (⟨7, 10⟩ : item Nat))] 1 9 5 3, none) :=
  ⟨(claim_C4 Nat Nat [] 1 9 5 3).1 rfl,
   (claim_C4 Nat Nat [((1 : Nat), (⟨7, 2⟩ : item Nat))] 1 9 5 3).2.1
      ⟨7, 2⟩ (by decide) (by decide),
   (claim_C4 Nat Nat [((1 : Nat), (⟨7, 10⟩ : item Nat))] 1 9 5 3).2.2
      ⟨7, 10⟩ (by decide) (by decide)⟩

/-- C5: after Pop(key) the key is absent from the store, whatever its
prior state (absent, live or expired), so a subsequent Get at any time
returns not-found. -/
theorem claim_C5 (K V : Type) [DecidableEq K] [Inhabited V] (s : Store K V) (k : K)
    (now now' : Int) :
    lookup (Pop s k now).1 k = none ∧ (Get (Pop s k now).1 k now').2.2 = false := by
  have h1 : lookup (Pop s k now).1 k = none := by
    rcases hcase : lookup s k with _ | i
    · simp [Pop, hcase]
    · by_cases he : isExpired i now = true
      · simp [Pop, hcase, he, lookup_delete_self]
      · simp [Pop, hcase, he, lookup_delete_self]
  exact ⟨h1, by simp [Get, h1]⟩

/-- C6: Get on a live entry returns the stored value with found=true and
leaves the store — the entry itself and every other key — completely
unchanged: the resulting store is literally the input store, so the TTL
is never refreshed. -/
theorem claim_C6 (K V : Type) [DecidableEq K] [Inhabited V] (s : Store K V) (k : K)
    (now : Int) (i : item V) (hl : lookup s k = some i) (hlive : isExpired i now = false) :
    Get s k now = (s, i.value, true) := by
  simp [Get, hl, hlive]

/-- C6 witness: Get of the live key 1 (expiry 10 > now 3) returns its
value 7 with found=true and the identical store. -/
theorem claim_C6_witness :
    Get [((1 : Nat), (⟨7, 10⟩ : item Nat))] 1 3 = ([(1, ⟨7, 10⟩)], 7, true) :=
  claim_C6 Nat Nat [((1 : Nat), (⟨7, 10⟩ : item Nat))] 1 3 ⟨7, 10⟩ (by decide) (by decide)

/-- C7 counterexample: the claim says RemoveExpired deletes every entry
with `expiry <= now` at scan time, but `isExpired` is strict
(`time.Now().After`), so an entry whose expiry equals the scan instant
(expiry 5 at now 5, hence `expiry <= now`) survives the sweep. -/
theorem claim_C7_counterexample :
    RemoveExpired [((1 : Nat), (⟨42, 5⟩ : item Nat))] 5 = [(1, ⟨42, 5⟩)] := by
  decide

/-- C7 (amended): RemoveExpired deletes exactly those entries whose
`expiry < now` (strictly) at scan time: every such entry is removed,
every entry with `now <= expiry` is kept with the same value and expiry,
and absent keys stay absent.  The hypothesis is the Go map invariant
that the association list has no duplicate keys. -/
theorem claim_C7_amended (K V : Type) [DecidableEq K] (s : Store K V) (now : Int) (k : K)
    (hnd : KeysNodup s) :
    (∀ i, lookup s k = some i → i.expiry < now → lookup (RemoveExpired s now) k = none)
  ∧ (∀ i, lookup s k = some i → now ≤ i.expiry → lookup (RemoveExpired s now) k = some i)
  ∧ (lookup s k = none → lookup (RemoveExpired s now) k = none) := by
  refine ⟨?_, ?_, ?_⟩
  · intro i hi hexp
    have hmem : k ∈ expiredKeys s now :=
      (mem_expiredKeys s now k).mpr ⟨i, mem_of_lookup_eq_some hi, by
        simp only [isExpired, gt_iff_lt, decide_eq_true_eq]
        exact hexp⟩
    simp [RemoveExpired, lookup_foldl_delete, hmem]
  · intro i hi hlive
    have hnm : k ∉ expiredKeys s now := by
      intro hmem
      rcases (mem_expiredKeys s now k).mp hmem with ⟨i', hmem', hexp'⟩
      have hli : lookup s k = some i' := lookup_eq_some_of_mem hnd hmem'
      rw [hi] at hli
      injection hli with hii
      subst hii
      simp only [isExpired, gt_iff_lt, decide_eq_true_eq] at hexp'
      omega
    simp [RemoveExpired, lookup_foldl_delete, hnm, hi]
  · intro hnone
    by_cases hmem : k ∈ expiredKeys s now
    · simp [RemoveExpired, lookup_foldl_delete, hmem]
    · simp [RemoveExpired, lookup_foldl_delete, hmem, hnone]

/-- C7 witness: with key 1 expired (expiry 0 < now 5) and key 2 live
(expiry 100 > now 5), RemoveExpired at time 5 removes key 1 and keeps
key 2 with its value and expiry. -/
theorem claim_C7_amended_witness :
    lookup (RemoveExpired [((1 : Nat), (⟨10, 0⟩ : item Nat)), (2, ⟨20, 100⟩)] 5) 1 = none
  ∧ lookup (RemoveExpired [((1 : Nat), (⟨10, 0⟩ : item Nat)), (2, ⟨20, 100⟩)] 5) 2
      = some ⟨20, 100⟩ :=
  ⟨(claim_C7_amended Nat Nat [((1 : Nat), (⟨10, 0⟩ : item Nat)), (2, ⟨20, 100⟩)] 5 1
      (by decide)).1 ⟨10, 0⟩ (by decide) (by decide),
   (claim_C7_amended Nat Nat [((1 : Nat), (⟨10, 0⟩ : item Nat)), (2, ⟨20, 100⟩)] 5 2
      (by decide)).2.1 ⟨20, 100⟩ (by decide) (by decide)⟩

/-- C8: after Clear the store is empty, so lookup of any key — in
particular any previously held key, live or expired — and hence Get at
any time, returns not-found. -/
theorem claim_C8 (K V : Type) [DecidableEq K] [Inhabited V] (s : Store K V) (k : K)
    (now : Int) :
    Clear s = ([] : Store K V)
  ∧ lookup (Clear s) k = none
  ∧ (Get (Clear s) k now).2.2 = false :=
  ⟨rfl, rfl, rfl⟩

/-- C10: Get and Pop on a key with no entry return the zero value of V
(modelled by `default`) with found=false and leave the store unchanged. -/
theorem claim_C10 (K V : Type) [DecidableEq K] [Inhabited V] (s : Store K V) (k : K)
    (now : Int) (h : lookup s k = none) :
    Get s k now = (s, default, false) ∧ Pop s k now = (s, default, false) :=
  ⟨by simp [Get, h], by simp [Pop, h]⟩

/-- C10 witness: Get and Pop of the absent key 1 return the zero value 0
of Nat with found=false and the store is untouched. -/
theorem claim_C10_witness :
    Get [((2 : Nat), (⟨7, 10⟩ : item Nat))] 1 3 = ([(2, ⟨7, 10⟩)], 0, false)
  ∧ Pop [((2 : Nat), (⟨7, 10⟩ : item Nat))] 1 3 = ([(2, ⟨7, 10⟩)], 0, false) :=
  claim_C10 Nat Nat [((2 : Nat), (⟨7, 10⟩ : item Nat))] 1 3 (by decide)

end GoCache
